import Mathlib

/-!
Shallow embedding of the editing core of `src/main.rs` (a modal terminal
text editor): the gap-buffer line store `GapLine`, lines `XLine`, buffers
`Buf`, the buffer registry `BufList`, the mode/command dispatch and the
`Editor` navigation state machine.

Conventions of the embedding:
* Rust `String` / `&str` content is modelled as `List Char` (Rust `char`s
  are Unicode scalar values, exactly Lean `Char`); `String::len` (UTF-8
  byte length) is modelled by summing `Char.utf8Size`.
* `usize` values are `Nat`; `saturating_sub` is `Nat` subtraction.
* `i32` values are `Int` (the editor's cursor/height arithmetic stays far
  from 32-bit overflow; theorems that depend on an `i32 → usize` cast
  carry a non-negativity hypothesis so `Int.toNat` models the cast exactly).
* Panicking indexing (`Vec` `Index`) is modelled with `List.getD` and a
  default element; fallible I/O returns `Except`/`Option`.
* The ncurses display surface is external: the only piece of it the core
  logic reads, `buffer_window.get_height()`, is modelled as a field
  `window_height` of the editor state; blocking reads (`read_input`,
  `getch`) are modelled by an environment record passed to dispatch.
-/

set_option linter.unusedVariables false

/-- The `'\0'` placeholder character the Rust code fills fresh buffers with. -/
def nullChar : Char := '\x00'

/-- Rust `String::len` for a list of Unicode scalars: total UTF-8 byte length. -/
def strByteLen (s : List Char) : Nat := (s.map Char.utf8Size).sum

/-- `struct GapLine { buf: Vec<char>, gap_start: usize, gap_end: usize }`. -/
structure GapLine where
  buf : List Char
  gap_start : Nat
  gap_end : Nat
  deriving Repr, DecidableEq

namespace GapLine

/-- `const DEFAULT_GAP_SIZE: usize = 16`. -/
def DEFAULT_GAP_SIZE : Nat := 16

/-- `GapLine::new(initial_capacity)`. -/
def new (initial_capacity : Nat) : GapLine :=
  let capacity := if initial_capacity = 0 then DEFAULT_GAP_SIZE else initial_capacity
  { buf := List.replicate capacity nullChar
    gap_start := 0
    gap_end := capacity }

/-- `GapLine::expand`: double the backing buffer (16 from empty), copying the
before-region to the front and the after-region to the back of the new buffer;
`new_tail_start = new_size - old_tail_len` becomes the new `gap_end`. -/
def expand (g : GapLine) : GapLine :=
  let old_size := g.buf.length
  let new_size := if old_size = 0 then DEFAULT_GAP_SIZE else old_size * 2
  let old_tail_len := old_size - g.gap_end
  let new_tail_start := new_size - old_tail_len
  { buf := g.buf.take g.gap_start
        ++ List.replicate (new_tail_start - g.gap_start) nullChar
        ++ g.buf.drop g.gap_end
    gap_start := g.gap_start
    gap_end := new_tail_start }

/-- `GapLine::insert_char`: expand when the gap has fewer than two free cells,
then write at `gap_start` and advance it. -/
def insert_char (g : GapLine) (ch : Char) : GapLine :=
  let g := if g.gap_start + 1 ≥ g.gap_end then g.expand else g
  { g with buf := g.buf.set g.gap_start ch, gap_start := g.gap_start + 1 }

/-- The `for ch in s.chars() { gl.insert_char(ch) }` loop. -/
def insert_all (g : GapLine) (s : List Char) : GapLine :=
  s.foldl insert_char g

/-- `GapLine::from_str`. -/
def from_str (s : List Char) : GapLine :=
  insert_all (new (strByteLen s + DEFAULT_GAP_SIZE)) s

/-- `GapLine::to_string`: before-region concatenated with after-region. -/
def to_string (g : GapLine) : List Char :=
  g.buf.take g.gap_start ++ g.buf.drop g.gap_end

/-- `GapLine::len`. -/
def len (g : GapLine) : Nat :=
  g.gap_start + (g.buf.length - g.gap_end)

/-- The gap invariant `0 ≤ gap_start ≤ gap_end ≤ capacity` (the first
inequality is vacuous over `Nat`). -/
def Wf (g : GapLine) : Prop :=
  g.gap_start ≤ g.gap_end ∧ g.gap_end ≤ g.buf.length

instance (g : GapLine) : Decidable g.Wf := by
  unfold Wf; infer_instance

/-- The before-region of the logical content. -/
def before (g : GapLine) : List Char := g.buf.take g.gap_start

/-- The after-region of the logical content. -/
def after (g : GapLine) : List Char := g.buf.drop g.gap_end

end GapLine

/-- `struct XLine { line_number: usize, data: String, gap_data: GapLine }`. -/
structure XLine where
  line_number : Nat
  data : List Char
  gap_data : GapLine
  deriving Repr, DecidableEq

namespace XLine

/-- `XLine::new(line_number, data)`. -/
def mk_new (line_number : Nat) (data : List Char) : XLine :=
  { line_number := line_number, data := data, gap_data := GapLine.from_str data }

/-- `XLine::size`: `self.data.chars().count()`. -/
def size (l : XLine) : Nat := l.data.length

end XLine

instance : Inhabited XLine := ⟨⟨0, [], ⟨[], 0, 0⟩⟩⟩

/-- `struct Buf { file_path, buffer_name, lines: Vec<XLine>, modified: bool }`
(`PathBuf` and the display name are modelled as character lists). -/
structure Buf where
  file_path : List Char
  buffer_name : List Char
  lines : List XLine
  modified : Bool
  deriving Repr, DecidableEq

instance : Inhabited Buf := ⟨⟨[], [], [], false⟩⟩

/-- The file-system collaborator's answer for one path: the typed result of
`File::open` + `BufReader::lines` — "not found", some other I/O failure, or
the ordered list of text lines of the file. -/
inductive FsResult where
  | notFound
  | otherError
  | ok (lines : List (List Char))
  deriving Repr, DecidableEq

/-- The error side of `io::Result` as `Buf::from_path` distinguishes it. -/
inductive IoErrorKind where
  | notFound
  | other
  deriving Repr, DecidableEq

namespace Buf

/-- `Buf::from_path`: propagate open/read errors; on success number the lines
`0..n` and build an `XLine` (with its gap-buffer mirror) per line,
`modified = false`. -/
def from_path (fs : FsResult) (path : List Char) : Except IoErrorKind Buf :=
  match fs with
  | .notFound => .error .notFound
  | .otherError => .error .other
  | .ok ls =>
      .ok { file_path := path
            buffer_name := path
            lines := ls.enum.map fun p => XLine.mk_new p.1 p.2
            modified := false }

end Buf

/-- `struct BufList { buffers: Vec<Buf>, current_idx: usize }`. -/
structure BufList where
  buffers : List Buf
  current_idx : Nat
  deriving Repr, DecidableEq

namespace BufList

/-- `BufList::new(first_buffer)`. -/
def new (first_buffer : Buf) : BufList :=
  { buffers := [first_buffer], current_idx := 0 }

/-- `BufList::append`: push and select as current. -/
def append (bl : BufList) (buffer : Buf) : BufList :=
  { buffers := bl.buffers ++ [buffer]
    current_idx := (bl.buffers ++ [buffer]).length - 1 }

/-- `BufList::get_current_buffer`: `&self.buffers[self.current_idx]` — the
panicking `Vec` index is modelled with a default element; the registry
invariant (C5) shows the index is always in range. -/
def get_current_buffer (bl : BufList) : Buf :=
  bl.buffers.getD bl.current_idx default

/-- A sequence of `append` calls, in order. -/
def append_all (bl : BufList) (bs : List Buf) : BufList :=
  bs.foldl append bl

end BufList

/-- `enum EditorMode { Command, Insert, Search }`. -/
inductive EditorMode where
  | Command
  | Insert
  | Search
  deriving Repr, DecidableEq

/-- The discriminant used by `self.modes[self.mode as usize]`. -/
def EditorMode.toIdx : EditorMode → Nat
  | .Command => 0
  | .Insert => 1
  | .Search => 2

/-- The closed set of `EditorCommand` implementations (`Quit`, `MovePoint`,
`MoveToLineEdge`, `MoveToFileEdge`, `MovePage`, `ToggleLineNumbers`,
`OpenFile`, `Search`), as a sum type. -/
inductive Command where
  | Quit
  | MovePoint (dy dx : Int)
  | MoveToLineEdge (to_end : Bool)
  | MoveToFileEdge (to_end : Bool)
  | MovePage (increment : Int)
  | ToggleLineNumbers
  | OpenFile
  | Search
  deriving Repr, DecidableEq

/-- `struct Mode { name: String, keymap: HashMap<String, Box<dyn EditorCommand>> }`.
The hash map is modelled as an association list looked up by first match;
`Mode::add_command` prepends, so later insertions shadow earlier ones exactly
as `HashMap::insert` overwrites. -/
structure Mode where
  name : List Char
  keymap : List (List Char × Command)
  deriving Repr, DecidableEq

instance : Inhabited Mode := ⟨⟨[], []⟩⟩

namespace Mode

/-- `Mode::new(name)`. -/
def mk_new (name : List Char) : Mode := { name := name, keymap := [] }

/-- `Mode::add_command(keys, command)`: bind every key of `keys` to (a clone
of) `command`. -/
def add_command (m : Mode) (keys : List (List Char)) (command : Command) : Mode :=
  { m with keymap := (keys.map fun k => (k, command)) ++ m.keymap }

/-- `Mode::lookup(cmd)`: `self.keymap.get(cmd)`. -/
def lookup (m : Mode) (cmd : List Char) : Option Command :=
  m.keymap.lookup cmd

end Mode

/-- The navigation/dispatch state of `struct Editor`. The two ncurses windows
are external display resources; the only datum the core logic reads from them,
`buffer_window.get_height()`, is carried as the field `window_height`
(`screen_width`, `screen_height` and the window handles play no role in the
specified behaviour and are omitted). `cursor` is split into its two `i32`
components. -/
structure Editor where
  modes : List Mode
  mode : EditorMode
  buffers : BufList
  redisplay : Bool
  quit : Bool
  cursor_y : Int
  cursor_x : Int
  start_line : Nat
  line_number_show : Bool
  window_height : Int
  deriving Repr, DecidableEq

namespace Editor

/-- `Editor::mark_redisplay`. -/
def mark_redisplay (e : Editor) : Editor := { e with redisplay := true }

/-- `Editor::get_current_line_idx`: `self.start_line + self.cursor.0 as usize`
(the cursor row is kept non-negative by `move_point`, so `Int.toNat` models
the cast). -/
def get_current_line_idx (e : Editor) : Nat :=
  e.start_line + e.cursor_y.toNat

/-- `Editor::get_current_line_len`: guarded access via `Vec::get`, 0 when the
current line index is past the end. -/
def get_current_line_len (e : Editor) : Nat :=
  match e.buffers.get_current_buffer.lines.get? e.get_current_line_idx with
  | some l => l.size
  | none => 0

/-- `Editor::move_point(dy, dx)`: clamp the row candidate to
`[0, window_height - 1]`, pull it back onto the last line of the buffer when
it would address past the end, then clamp the column to `[0, line_len]` of the
(row-updated) current line. -/
def move_point (e : Editor) (dy dx : Int) : Editor :=
  let num_lines := e.buffers.get_current_buffer.lines.length
  let window_height := e.window_height
  let new_y := e.cursor_y + dy
  let new_y := min (max new_y 0) (window_height - 1)
  let potential_line_idx := e.start_line + new_y.toNat
  let new_y :=
    if potential_line_idx ≥ num_lines then
      (Int.ofNat ((num_lines - 1) - e.start_line))
    else new_y
  let e := { e with cursor_y := max new_y 0 }
  let new_x := e.cursor_x + dx
  let line_len := e.get_current_line_len
  let new_x := min (max new_x 0) (Int.ofNat line_len)
  { e with cursor_x := new_x }

/-- `Editor::move_to_line_edge(to_end)`. -/
def move_to_line_edge (e : Editor) (to_end : Bool) : Editor :=
  if to_end then { e with cursor_x := Int.ofNat e.get_current_line_len }
  else { e with cursor_x := 0 }

/-- `Editor::move_to_file_edge(to_end)`. -/
def move_to_file_edge (e : Editor) (to_end : Bool) : Editor :=
  let e :=
    if to_end then
      let num_lines := e.buffers.get_current_buffer.lines.length
      let window_height := e.window_height.toNat
      let e := { e with start_line := num_lines - window_height }
      { e with cursor_y := Int.ofNat ((num_lines - 1) - e.start_line) }
    else
      { e with start_line := 0, cursor_y := 0 }
  e.mark_redisplay

/-- `Editor::move_page(increment)`: forward pages stop at `num_lines - 1`
(saturating), backward pages stop at 0; always marks redisplay. -/
def move_page (e : Editor) (increment : Int) : Editor :=
  let num_lines := e.buffers.get_current_buffer.lines.length
  let page_size := e.window_height.toNat
  let new_start_line :=
    if increment > 0 then
      min (e.start_line + page_size) (num_lines - 1)
    else
      e.start_line - page_size
  ({ e with start_line := new_start_line } : Editor).mark_redisplay

end Editor

/-- The external world one dispatch step can consult: the line the blocking
`read_input` prompt returns, and the file system's answer for each path. -/
structure Env where
  input : List Char
  fs : List Char → FsResult

/-- `EditorCommand::execute` for each command variant, returning the mutated
editor and the `EditorMode` the Rust method returns. `mode_read_input` marks
redisplay (the prompt clears the screen); `OpenFile` additionally appends the
loaded buffer and marks redisplay on success, shows the error and waits for a
keypress (no state change) on failure, and always returns `Command` mode. -/
def Command.execute (c : Command) (env : Env) (e : Editor) : Editor × EditorMode :=
  match c with
  | .Quit => ({ e with quit := true }, e.mode)
  | .MovePoint dy dx => (e.move_point dy dx, e.mode)
  | .MoveToLineEdge to_end => (e.move_to_line_edge to_end, e.mode)
  | .MoveToFileEdge to_end => (e.move_to_file_edge to_end, e.mode)
  | .MovePage increment => (e.move_page increment, e.mode)
  | .ToggleLineNumbers =>
      (({ e with line_number_show := !e.line_number_show } : Editor).mark_redisplay, e.mode)
  | .OpenFile =>
      let e := e.mark_redisplay
      let e :=
        match Buf.from_path (env.fs env.input) env.input with
        | .ok new_buf => ({ e with buffers := e.buffers.append new_buf } : Editor).mark_redisplay
        | .error _ => e
      (e.mark_redisplay, EditorMode.Command)
  | .Search =>
      (e.mark_redisplay, EditorMode.Search)

/-- `Editor::run_cmd(cmd)`: look the symbol up in the active mode's keymap
(unbound symbols are a silent no-op); execute the command; adopt the returned
mode and mark redisplay exactly when it differs from the current one. -/
def Editor.run_command (e : Editor) (env : Env) (cmd : List Char) : Editor :=
  match (e.modes.getD e.mode.toIdx default).lookup cmd with
  | none => e
  | some command =>
      let r := command.execute env e
      if r.1.mode ≠ r.2 then
        ({ r.1 with mode := r.2 } : Editor).mark_redisplay
      else r.1

/-- The startup load in `main`: on `NotFound` synthesize a buffer with one
blank line and proceed; on any other load error print and terminate (`none`
models process termination). -/
def load_initial_buffer (fs : FsResult) (path : List Char) : Option Buf :=
  match Buf.from_path fs path with
  | .ok buf => some buf
  | .error e =>
      if e = IoErrorKind.notFound then
        some { file_path := path
               buffer_name := path
               lines := [XLine.mk_new 0 []]
               modified := false }
      else none

/-- A concrete editor over a 5-line buffer with window height 10 (the cursor
clamp scenario of §8 of the spec). -/
def ed5 : Editor :=
  { modes := []
    mode := .Command
    buffers := BufList.new
      { file_path := []
        buffer_name := []
        lines := [XLine.mk_new 0 [], XLine.mk_new 1 [], XLine.mk_new 2 [],
                  XLine.mk_new 3 [], XLine.mk_new 4 []]
        modified := false }
    redisplay := true
    quit := false
    cursor_y := 0
    cursor_x := 0
    start_line := 0
    line_number_show := false
    window_height := 10 }

/-- A concrete editor over a 100-line buffer with window height 20, viewport
start 0 (the page-navigation scenario of §8 of the spec). -/
def ed100 : Editor :=
  { modes := []
    mode := .Command
    buffers := BufList.new
      { file_path := []
        buffer_name := []
        lines := List.replicate 100 (XLine.mk_new 0 [])
        modified := false }
    redisplay := false
    quit := false
    cursor_y := 0
    cursor_x := 0
    start_line := 0
    line_number_show := false
    window_height := 20 }

/-- The 100-line editor with viewport start 85. -/
def ed100_85 : Editor := { ed100 with start_line := 85 }

/-- The 5-line editor with the viewport scrolled past the end of the buffer
(current line index 7 ≥ 5). -/
def ed_oob : Editor := { ed5 with start_line := 7 }

/-- A trivial dispatch environment (empty prompt answer, every file absent). -/
def env0 : Env := { input := [], fs := fun _ => FsResult.notFound }

/-- An editor whose command mode binds only "q" (to `Quit`), for dispatch
witnesses. -/
def edq : Editor :=
  { ed5 with
    modes := [Mode.add_command (Mode.mk_new ['C','M','D']) [['q']] Command.Quit,
              Mode.mk_new ['I'], Mode.mk_new ['S']] }

namespace GapLine

theorem to_string_eq (g : GapLine) : g.to_string = g.before ++ g.after := rfl

/-- Helper: taking at most the first block of an append. -/
theorem take_append_left (A B : List Char) (n : Nat) (h : n ≤ A.length) :
    (A ++ B).take n = A.take n := List.take_append_of_le_length h

/-- Helper: dropping exactly the first block of an append. -/
theorem drop_append_exact (A B : List Char) (n : Nat) (h : n = A.length) :
    (A ++ B).drop n = B := by
  subst h
  exact List.drop_left A B

theorem new_wf (c : Nat) : (new c).Wf := by
  unfold new Wf
  simp

theorem expand_buf_length (g : GapLine) (h : g.Wf) :
    g.expand.buf.length = if g.buf.length = 0 then DEFAULT_GAP_SIZE else g.buf.length * 2 := by
  obtain ⟨h1, h2⟩ := h
  simp only [expand, DEFAULT_GAP_SIZE, List.length_append, List.length_take,
    List.length_replicate, List.length_drop]
  split <;> omega

theorem expand_wf (g : GapLine) (h : g.Wf) : g.expand.Wf := by
  obtain ⟨h1, h2⟩ := h
  simp only [expand, Wf, DEFAULT_GAP_SIZE, List.length_append, List.length_take,
    List.length_replicate, List.length_drop]
  constructor <;> (split <;> omega)

theorem expand_gap_lt (g : GapLine) (h : g.Wf) :
    g.expand.gap_start < g.expand.gap_end := by
  obtain ⟨h1, h2⟩ := h
  simp only [expand, DEFAULT_GAP_SIZE]
  split <;> omega

theorem expand_before (g : GapLine) (h : g.Wf) : g.expand.before = g.before := by
  obtain ⟨h1, h2⟩ := h
  simp only [expand, before, DEFAULT_GAP_SIZE]
  rw [take_append_left _ _ _ (by
    simp only [List.length_append, List.length_take, List.length_replicate]
    split <;> omega)]
  rw [take_append_left _ _ _ (by simp only [List.length_take]; omega)]
  rw [List.take_take, Nat.min_self]

theorem expand_after (g : GapLine) (h : g.Wf) : g.expand.after = g.after := by
  obtain ⟨h1, h2⟩ := h
  simp only [expand, after, DEFAULT_GAP_SIZE]
  rw [drop_append_exact _ _ _ (by
    simp only [List.length_append, List.length_take, List.length_replicate]
    split <;> omega)]

theorem write_wf (g : GapLine) (ch : Char) (h1 : g.gap_start < g.gap_end)
    (h2 : g.gap_end ≤ g.buf.length) :
    GapLine.Wf { g with buf := g.buf.set g.gap_start ch, gap_start := g.gap_start + 1 } := by
  unfold Wf
  simp only [List.length_set]
  omega

theorem write_before (g : GapLine) (ch : Char) (h1 : g.gap_start < g.gap_end)
    (h2 : g.gap_end ≤ g.buf.length) :
    GapLine.before { g with buf := g.buf.set g.gap_start ch, gap_start := g.gap_start + 1 } =
      g.before ++ [ch] := by
  have hlt : g.gap_start < g.buf.length := lt_of_lt_of_le h1 h2
  unfold before
  simp only
  rw [List.set_eq_take_cons_drop ch hlt]
  rw [List.take_append_eq_append_take]
  have hA : (g.buf.take g.gap_start).length = g.gap_start := by
    simp only [List.length_take]
    omega
  rw [List.take_of_length_le (by omega), hA]
  simp

theorem write_after (g : GapLine) (ch : Char) (h1 : g.gap_start < g.gap_end)
    (h2 : g.gap_end ≤ g.buf.length) :
    GapLine.after { g with buf := g.buf.set g.gap_start ch, gap_start := g.gap_start + 1 } =
      g.after := by
  have hlt : g.gap_start < g.buf.length := lt_of_lt_of_le h1 h2
  unfold after
  simp only
  rw [List.set_eq_take_cons_drop ch hlt]
  rw [List.drop_append_eq_append_drop]
  have hA : (g.buf.take g.gap_start).length = g.gap_start := by
    simp only [List.length_take]
    omega
  rw [List.drop_eq_nil_of_le (by omega), hA]
  obtain ⟨k, hk⟩ : ∃ k, g.gap_end - g.gap_start = k + 1 :=
    ⟨g.gap_end - g.gap_start - 1, by omega⟩
  rw [hk]
  simp only [List.nil_append, List.drop_succ_cons, List.drop_drop]
  congr 1
  omega

theorem insert_char_spec (g : GapLine) (ch : Char) (h : g.Wf) :
    (g.insert_char ch).Wf ∧
    (g.insert_char ch).before = g.before ++ [ch] ∧
    (g.insert_char ch).after = g.after := by
  unfold insert_char
  simp only
  split
  · refine ⟨write_wf _ _ (expand_gap_lt g h) (expand_wf g h).2, ?_, ?_⟩
    · rw [write_before _ _ (expand_gap_lt g h) (expand_wf g h).2, expand_before g h]
    · rw [write_after _ _ (expand_gap_lt g h) (expand_wf g h).2, expand_after g h]
  · have h1 : g.gap_start < g.gap_end := by omega
    exact ⟨write_wf _ _ h1 h.2, write_before _ _ h1 h.2, write_after _ _ h1 h.2⟩

theorem insert_all_spec (s : List Char) (g : GapLine) (h : g.Wf) :
    (g.insert_all s).Wf ∧
    (g.insert_all s).before = g.before ++ s ∧
    (g.insert_all s).after = g.after := by
  induction s generalizing g with
  | nil => simpa [insert_all] using h
  | cons c cs ih =>
    obtain ⟨hw, hb, ha⟩ := insert_char_spec g c h
    obtain ⟨hw', hb', ha'⟩ := ih (g.insert_char c) hw
    refine ⟨hw', ?_, ?_⟩
    · rw [show (g.insert_all (c :: cs)) = ((g.insert_char c).insert_all cs) from rfl,
        hb', hb]
      simp
    · rw [show (g.insert_all (c :: cs)) = ((g.insert_char c).insert_all cs) from rfl,
        ha', ha]

theorem new_before (c : Nat) : (new c).before = [] := by
  simp [new, before]

theorem new_after (c : Nat) : (new c).after = [] := by
  simp [new, after]

theorem from_str_wf (s : List Char) : (from_str s).Wf :=
  (insert_all_spec s _ (new_wf _)).1

theorem from_str_to_string (s : List Char) : (from_str s).to_string = s := by
  obtain ⟨hw, hb, ha⟩ := insert_all_spec s (new (strByteLen s + DEFAULT_GAP_SIZE))
    (new_wf _)
  rw [show from_str s = (new (strByteLen s + DEFAULT_GAP_SIZE)).insert_all s from rfl]
  rw [to_string_eq, hb, ha, new_before, new_after]
  simp

theorem len_eq_length_to_string (g : GapLine) (h : g.Wf) :
    g.len = g.to_string.length := by
  obtain ⟨h1, h2⟩ := h
  simp only [len, to_string, List.length_append, List.length_take, List.length_drop]
  omega

end GapLine

/-- C1: round-trip of the line store — for every string `s` with no occurrence
of the sentinel placeholder character `'\0'`, rendering the store built from
`s` returns `s` exactly: `GapLine::from_str(s).to_string() == s`. -/
theorem c1_from_str_to_string_round_trip (s : List Char) (h : nullChar ∉ s) :
    (GapLine.from_str s).to_string = s :=
  GapLine.from_str_to_string s

/-- C1 witness: the round-trip theorem applied at the concrete string "ab". -/
theorem c1_from_str_to_string_round_trip_witness :
    nullChar ∉ ['a', 'b'] ∧ (GapLine.from_str ['a', 'b']).to_string = ['a', 'b'] :=
  ⟨by decide, c1_from_str_to_string_round_trip ['a', 'b'] (by decide)⟩

/-- C2 counterexample: `GapLine::new(5)` allocates a buffer of 5 cells, not
`max(5, 16) = 16` — the code only substitutes the default size 16 when the
requested capacity is exactly 0. -/
theorem c2_new_capacity_counterexample :
    ¬ ((GapLine.new 5).buf.length = max 5 16 ∧ (GapLine.new 5).gap_start = 0 ∧
       (GapLine.new 5).gap_end = max 5 16) := by
  decide

/-- C2 (amended): for every requested capacity `c`, `GapLine::new(c)` allocates
a backing buffer of exactly `c` placeholder (`'\0'`) cells when `c > 0`, and of
the default 16 placeholder cells when `c = 0`, with `gap_start = 0` and
`gap_end` equal to that allocated capacity (the gap spans the whole buffer). -/
theorem c2_new_allocates_capacity (c : Nat) :
    (GapLine.new c).buf = List.replicate (if c = 0 then 16 else c) nullChar ∧
    (GapLine.new c).gap_start = 0 ∧
    (GapLine.new c).gap_end = (GapLine.new c).buf.length := by
  refine ⟨rfl, rfl, ?_⟩
  simp [GapLine.new]

theorem Editor.move_point_start_line (e : Editor) (dy dx : Int) :
    (e.move_point dy dx).start_line = e.start_line := rfl

theorem Editor.move_point_buffers (e : Editor) (dy dx : Int) :
    (e.move_point dy dx).buffers = e.buffers := rfl

theorem Editor.move_point_window_height (e : Editor) (dy dx : Int) :
    (e.move_point dy dx).window_height = e.window_height := rfl

theorem Editor.move_point_cursor_y (e : Editor) (dy dx : Int)
    (hw : 1 ≤ e.window_height) :
    (e.move_point dy dx).cursor_y =
      (if e.buffers.get_current_buffer.lines.length ≤
          e.start_line + (min (max (e.cursor_y + dy) 0) (e.window_height - 1)).toNat
       then max 0 ((e.buffers.get_current_buffer.lines.length : Int) - 1 -
            (e.start_line : Int))
       else min (max (e.cursor_y + dy) 0) (e.window_height - 1)) := by
  simp only [move_point, Int.ofNat_eq_coe, ge_iff_le]
  split <;> omega

theorem Editor.move_point_cursor_x (e : Editor) (dy dx : Int) :
    (e.move_point dy dx).cursor_x =
      min (max (e.cursor_x + dx) 0)
        ((({ e with cursor_y := (e.move_point dy dx).cursor_y } : Editor).get_current_line_len
          : Int)) := by
  simp only [move_point, Int.ofNat_eq_coe]

theorem Editor.move_point_down_bound (e : Editor)
    (h5 : e.buffers.get_current_buffer.lines.length = 5)
    (hw : e.window_height = 10) (hs : e.start_line = 0) :
    (e.move_point 1 0).cursor_y.toNat ≤ 4 := by
  simp only [move_point, h5, hw, hs, Int.ofNat_eq_coe, ge_iff_le]
  split <;> omega

theorem ed5_iterate_fields (n : Nat) :
    ((fun ed => Editor.move_point ed 1 0)^[n] ed5).start_line = 0 ∧
    ((fun ed => Editor.move_point ed 1 0)^[n] ed5).buffers = ed5.buffers ∧
    ((fun ed => Editor.move_point ed 1 0)^[n] ed5).window_height = 10 := by
  induction n with
  | zero => exact ⟨rfl, rfl, rfl⟩
  | succ n ih =>
    rw [Function.iterate_succ_apply']
    exact ⟨(Editor.move_point_start_line _ 1 0).trans ih.1,
      (Editor.move_point_buffers _ 1 0).trans ih.2.1,
      (Editor.move_point_window_height _ 1 0).trans ih.2.2⟩

/-- C3: cursor movement clamps independently on both axes — `move_point(dy,dx)`
sets the row to `clamp(row+dy, 0, window_height−1)`, reduced to
`max(0, last_line_index − viewport_start)` whenever `viewport_start` plus the
candidate row would exceed the buffer's last line index, and sets the column
to `clamp(col+dx, 0, current_line_length)` of the row-updated state; in
particular, on a 5-line buffer with window height 10, repeating
`move_point(1,0)` from row 0 never advances the addressed line index past 4. -/
theorem c3_move_point_clamps (e : Editor) (dy dx : Int)
    (hw : 1 ≤ e.window_height) :
    ((e.move_point dy dx).cursor_y =
      (if e.buffers.get_current_buffer.lines.length ≤
          e.start_line + (min (max (e.cursor_y + dy) 0) (e.window_height - 1)).toNat
       then max 0 ((e.buffers.get_current_buffer.lines.length : Int) - 1 -
            (e.start_line : Int))
       else min (max (e.cursor_y + dy) 0) (e.window_height - 1)) ∧
     (e.move_point dy dx).cursor_x =
      min (max (e.cursor_x + dx) 0)
        ((({ e with cursor_y := (e.move_point dy dx).cursor_y } : Editor).get_current_line_len
          : Int))) ∧
    (∀ n : Nat, ((fun ed => Editor.move_point ed 1 0)^[n] ed5).start_line +
      ((fun ed => Editor.move_point ed 1 0)^[n] ed5).cursor_y.toNat ≤ 4) := by
  refine ⟨⟨Editor.move_point_cursor_y e dy dx hw, Editor.move_point_cursor_x e dy dx⟩, ?_⟩
  intro n
  cases n with
  | zero => decide
  | succ n =>
    obtain ⟨hs, hb, hh⟩ := ed5_iterate_fields n
    rw [Function.iterate_succ_apply']
    rw [Editor.move_point_start_line _ 1 0, hs]
    refine Nat.le_trans (Nat.le_of_eq (Nat.zero_add _)) ?_
    exact Editor.move_point_down_bound _ (by rw [hb]; rfl) hh hs

/-- C3 witness: the clamp law applied to the concrete 5-line editor. -/
theorem c3_move_point_clamps_witness :
    1 ≤ ed5.window_height ∧
    (ed5.move_point 1 0).cursor_y =
      (if ed5.buffers.get_current_buffer.lines.length ≤
          ed5.start_line + (min (max (ed5.cursor_y + 1) 0) (ed5.window_height - 1)).toNat
       then max 0 ((ed5.buffers.get_current_buffer.lines.length : Int) - 1 -
            (ed5.start_line : Int))
       else min (max (ed5.cursor_y + 1) 0) (ed5.window_height - 1)) :=
  ⟨by decide, (c3_move_point_clamps ed5 1 0 (by decide)).1.1⟩

/-- C6: growth preserves content — inserting a sequence of characters longer
than the initial capacity into a fresh line store (which forces capacity
doublings) leaves `len` equal to the number of characters inserted and
`to_string` equal to the characters in insertion order; and every doubling
recomputes the after-region's new offset (`gap_end`) as
`new_capacity − old_after_length`. -/
theorem c6_growth_preserves_content (c : Nat) (cs : List Char)
    (h : (GapLine.new c).buf.length < cs.length) :
    ((GapLine.new c).insert_all cs).len = cs.length ∧
    ((GapLine.new c).insert_all cs).to_string = cs ∧
    (∀ g : GapLine, g.expand.gap_end =
      (if g.buf.length = 0 then 16 else g.buf.length * 2) -
        (g.buf.length - g.gap_end)) := by
  obtain ⟨hw, hb, ha⟩ := GapLine.insert_all_spec cs (GapLine.new c) (GapLine.new_wf c)
  have hts : ((GapLine.new c).insert_all cs).to_string = cs := by
    rw [GapLine.to_string_eq, hb, ha, GapLine.new_before, GapLine.new_after]
    simp
  refine ⟨?_, hts, fun g => rfl⟩
  rw [GapLine.len_eq_length_to_string _ hw, hts]

/-- C6 witness: inserting 18 characters into a fresh default-capacity store
(capacity 16, so at least one doubling happens). -/
theorem c6_growth_preserves_content_witness :
    (GapLine.new 0).buf.length <
      (['a','b','c','d','e','f','g','h','i','j','k','l','m','n','o','p','q','r'] :
        List Char).length ∧
    ((GapLine.new 0).insert_all
      ['a','b','c','d','e','f','g','h','i','j','k','l','m','n','o','p','q','r']).len = 18 :=
  ⟨by decide,
   (c6_growth_preserves_content 0
     ['a','b','c','d','e','f','g','h','i','j','k','l','m','n','o','p','q','r']
     (by decide)).1⟩

/-- C7: gap invariant — construction, construction from a string, character
insertion and capacity expansion all preserve
`0 ≤ gap_start ≤ gap_end ≤ capacity`, and `len` always equals
`gap_start + (capacity − gap_end)`. -/
theorem c7_gap_invariant :
    (∀ c, (GapLine.new c).Wf) ∧
    (∀ s, (GapLine.from_str s).Wf) ∧
    (∀ (g : GapLine) (ch : Char), g.Wf → (g.insert_char ch).Wf) ∧
    (∀ g : GapLine, g.Wf → g.expand.Wf) ∧
    (∀ g : GapLine, g.len = g.gap_start + (g.buf.length - g.gap_end)) :=
  ⟨GapLine.new_wf, GapLine.from_str_wf,
   fun g ch h => (GapLine.insert_char_spec g ch h).1,
   GapLine.expand_wf,
   fun g => rfl⟩

/-- C7 witness: the invariant clauses with hypotheses, applied at concrete
stores. -/
theorem c7_gap_invariant_witness :
    ((GapLine.new 4).insert_char 'a').Wf ∧ (GapLine.new 0).expand.Wf :=
  ⟨c7_gap_invariant.2.2.1 (GapLine.new 4) 'a' (by decide),
   c7_gap_invariant.2.2.2.1 (GapLine.new 0) (by decide)⟩

theorem BufList.append_all_spec (bs : List Buf) (bl : BufList)
    (h : bl.current_idx = bl.buffers.length - 1) :
    (bl.append_all bs).buffers = bl.buffers ++ bs ∧
    (bl.append_all bs).current_idx = (bl.buffers ++ bs).length - 1 := by
  induction bs generalizing bl with
  | nil => exact ⟨by simp [BufList.append_all], by simp [BufList.append_all, h]⟩
  | cons b rest ih =>
    have step : (bl.append_all (b :: rest)) = (bl.append b).append_all rest := rfl
    obtain ⟨h1, h2⟩ := ih (bl.append b) (by simp [BufList.append])
    rw [step, h1, h2]
    constructor <;> simp [BufList.append]

theorem List.getD_last_eq_getLastD (l : List Buf) (d : Buf) (h : l ≠ []) :
    l.getD (l.length - 1) d = l.getLastD d := by
  induction l generalizing d with
  | nil => exact absurd rfl h
  | cons a t ih =>
    cases t with
    | nil => rfl
    | cons b t' =>
      have h1 : (a :: b :: t').length - 1 = ((b :: t').length - 1) + 1 := by simp
      rw [h1, List.getD_cons_succ, ih d (by simp)]
      simp [List.getLastD_cons]

/-- C5: registry invariant — after construction and any sequence of `append`
calls, the registry is non-empty, the current index addresses an existing
buffer, and `get_current_buffer` returns exactly the most recently appended
buffer (the construction-time buffer when nothing was appended). -/
theorem c5_registry_invariant (b0 : Buf) (bs : List Buf) :
    ((BufList.new b0).append_all bs).buffers ≠ [] ∧
    ((BufList.new b0).append_all bs).current_idx <
      ((BufList.new b0).append_all bs).buffers.length ∧
    ((BufList.new b0).append_all bs).get_current_buffer = bs.getLastD b0 := by
  obtain ⟨h1, h2⟩ := BufList.append_all_spec bs (BufList.new b0) rfl
  have hbuf : ((BufList.new b0).append_all bs).buffers = b0 :: bs := by
    simpa [BufList.new] using h1
  have hne : ((BufList.new b0).append_all bs).buffers ≠ [] := by
    rw [hbuf]; simp
  refine ⟨hne, ?_, ?_⟩
  · rw [h2, h1]
    simp [BufList.new]
  · rw [BufList.get_current_buffer, h2, h1]
    have hb : (BufList.new b0).buffers ++ bs = b0 :: bs := by simp [BufList.new]
    rw [hb, List.getD_last_eq_getLastD (b0 :: bs) default (by simp)]
    cases bs with
    | nil => rfl
    | cons b t =>
      show (b0 :: b :: t).getLast?.getD default = (b :: t).getLast?.getD b0
      rw [List.getLast?_cons_cons]
      rcases hlast : (b :: t).getLast? with _ | x
      · exact absurd hlast (by simp)
      · rfl

/-- C8: missing-file recovery — loading a nonexistent path at startup yields
`some` buffer with exactly one line whose text is empty and `modified = false`
(the process proceeds); any other I/O failure at startup is fatal (`none`). -/
theorem c8_missing_file_recovery (path : List Char) :
    (∃ b, load_initial_buffer FsResult.notFound path = some b ∧
      b.lines.length = 1 ∧ (b.lines.getD 0 default).data = [] ∧
      b.modified = false) ∧
    load_initial_buffer FsResult.otherError path = none := by
  exact ⟨⟨_, rfl, rfl, rfl, rfl⟩, rfl⟩

/-- C4: page navigation edge policy — a forward page (`increment > 0`) sets
`viewport_start` to `min(viewport_start + window_height, line_count − 1)`
(bounded by `line_count − 1`, not `line_count − window_height`), a backward
page sets it to `max(0, viewport_start − window_height)` (saturating `Nat`
subtraction), and every page move marks redisplay; with `line_count = 100` and
`window_height = 20`, a forward page from 0 yields 20 and a forward page from
85 yields 99, not 100. -/
theorem c4_move_page_edge_policy (e : Editor) (i : Int)
    (hw : 0 ≤ e.window_height) :
    ((e.move_page i).start_line =
      (if 0 < i then
        min (e.start_line + e.window_height.toNat)
          (e.buffers.get_current_buffer.lines.length - 1)
       else e.start_line - e.window_height.toNat) ∧
     (e.move_page i).redisplay = true) ∧
    (ed100.move_page 1).start_line = 20 ∧
    (ed100_85.move_page 1).start_line = 99 ∧
    (ed100_85.move_page 1).start_line ≠ 100 :=
  ⟨⟨rfl, rfl⟩, by decide, by decide, by decide⟩

/-- C4 witness: the page law applied to the concrete 100-line editor. -/
theorem c4_move_page_edge_policy_witness :
    0 ≤ ed100.window_height ∧ (ed100.move_page 1).redisplay = true :=
  ⟨by decide, (c4_move_page_edge_policy ed100 1 (by decide)).1.2⟩

/-- C9: unbound input is a no-op — a symbol absent from the active mode's
keymap leaves the whole editor state unchanged; a recognized symbol produces
the executed state, and the mode changes together with a redisplay request
exactly when the command's returned mode differs from the (post-execution)
current mode. -/
theorem c9_unbound_input_noop (env : Env) (e : Editor) (sym : List Char) :
    ((e.modes.getD e.mode.toIdx default).lookup sym = none →
      e.run_command env sym = e) ∧
    (∀ c : Command, (e.modes.getD e.mode.toIdx default).lookup sym = some c →
      e.run_command env sym =
        (if (c.execute env e).1.mode = (c.execute env e).2 then (c.execute env e).1
         else ({ (c.execute env e).1 with mode := (c.execute env e).2 }
           : Editor).mark_redisplay)) := by
  constructor
  · intro h
    simp only [Editor.run_command]
    rw [h]
  · intro c hc
    simp only [Editor.run_command, hc]
    by_cases hm : (c.execute env e).1.mode = (c.execute env e).2
    · simp [hm]
    · simp [hm]

/-- C9 witness: on an editor whose command mode binds only "q", the symbol "z"
is unbound and dispatching it is the identity. -/
theorem c9_unbound_input_noop_witness :
    (edq.modes.getD edq.mode.toIdx default).lookup ['z'] = none ∧
    edq.run_command env0 ['z'] = edq :=
  ⟨by decide, (c9_unbound_input_noop env0 edq ['z']).1 (by decide)⟩

/-- C10: navigation line access is total — whenever `viewport_start` plus the
cursor row addresses a line index at or past the buffer's line count, the
guarded accessor `get_current_line_len` yields 0 instead of indexing out of
range, and `move_to_line_edge(to_end = true)` on such a state sets the column
to 0. -/
theorem c10_line_access_guarded (e : Editor)
    (h : e.buffers.get_current_buffer.lines.length ≤ e.get_current_line_idx) :
    e.get_current_line_len = 0 ∧
    (e.move_to_line_edge true).cursor_x = 0 := by
  have hnone : e.buffers.get_current_buffer.lines.get? e.get_current_line_idx = none :=
    List.get?_eq_none.2 h
  have hlen : e.get_current_line_len = 0 := by
    simp only [Editor.get_current_line_len]
    rw [hnone]
  exact ⟨hlen, by simp [Editor.move_to_line_edge, hlen]⟩

/-- C10 witness: the 5-line editor scrolled to viewport start 7 (line index 7
is past the end). -/
theorem c10_line_access_guarded_witness :
    ed_oob.buffers.get_current_buffer.lines.length ≤ ed_oob.get_current_line_idx ∧
    ed_oob.get_current_line_len = 0 :=
  ⟨by decide, (c10_line_access_guarded ed_oob (by decide)).1⟩
